import Mathlib

/-!
Shallow embedding of `ahs.go` (github.com/Mongey/ahs): a tool that computes an
EC2 instance hostname from a tag value plus either a truncated instance id or
a sequential group id, and writes it back.  Go strings are modelled as lists of
characters (one `Char` per byte), Go `int` as `Int` with the 64-bit range made
explicit where `strconv.Atoi` checks it, fallible operations as `Except` /
`Option`, and a Go runtime panic (out-of-range string slice) as `Option.none`.
-/

/-- Go strings, modelled as lists of characters. -/
abbrev GoString := List Char

/-- Error values surfaced by the program (the distinct `error` results that
`ahs.go` can produce, plus opaque errors handed back by the AWS SDK which the
environment supplies). -/
inductive GoErr where
  /-- Error of `user.Current` or the non-root check in `run`. -/
  | notRoot
  /-- The `c.MDS.Available()` check in `getAWSMDSClient` failed. -/
  | mdsUnavailable
  /-- Error of `computeRegionFromAZ` for availability zone `az`. -/
  | invalidAZ (az : GoString)
  /-- Error of `getAWSEC2Client` for region `r`. -/
  | invalidRegion (r : GoString)
  /-- Error of `strconv.Atoi`: malformed syntax. -/
  | errSyntax
  /-- Error of `strconv.Atoi`: value out of the 64-bit range. -/
  | errRange
  /-- Error of `findInstanceGroupTagValue` when `n ≠ 1` tags come back. -/
  | tagCount (n : Nat)
  /-- The `default` branch of the command switch in `run`. -/
  | notImplemented (name : GoString)
  /-- Sentinel for the (unreachable) retry-exhausted exit of the input-tag loop. -/
  | inputTagRetriesExhausted
  /-- An opaque error returned by an AWS API call, supplied by the environment. -/
  | apiError (msg : GoString)
  deriving DecidableEq, Repr

instance {ε α : Type} [DecidableEq ε] [DecidableEq α] : DecidableEq (Except ε α) :=
  fun x y =>
    match x, y with
    | .ok a, .ok b =>
      if h : a = b then .isTrue (by rw [h]) else .isFalse (by simp [h])
    | .error a, .error b =>
      if h : a = b then .isTrue (by rw [h]) else .isFalse (by simp [h])
    | .ok _, .error _ => .isFalse (by simp)
    | .error _, .ok _ => .isFalse (by simp)

/-- Go string slice `s[low:]`; `none` models the runtime panic when
`low < 0` or `low > len(s)`. -/
def goSliceFrom (s : GoString) (low : Int) : Option GoString :=
  if 0 ≤ low ∧ low ≤ (s.length : Int) then some (s.drop low.toNat) else none

/-- Go string slice `s[low:high]`; `none` models the runtime panic when the
bounds are not `0 ≤ low ≤ high ≤ len(s)`. -/
def goSlice (s : GoString) (low high : Int) : Option GoString :=
  if 0 ≤ low ∧ low ≤ high ∧ high ≤ (s.length : Int) then
    some ((s.take high.toNat).drop low.toNat)
  else none

/-- Value of an all-digit character list read in base 10. -/
def digitsVal (ds : GoString) : Nat :=
  ds.foldl (fun a c => a * 10 + (c.toNat - '0'.toNat)) 0

/-- Model of Go `strconv.Atoi`: optional sign followed by one or more decimal
digits, 64-bit range checked; mirrors Go by returning a value together with an
optional error (`0` on a syntax error, the clamped extremum on a range error). -/
def goAtoi (s : GoString) : Int × Option GoErr :=
  match s with
  | [] => (0, some GoErr.errSyntax)
  | c :: rest =>
    let neg : Bool := c = '-'
    let ds : GoString := if c = '-' ∨ c = '+' then rest else s
    if ds.isEmpty ∨ ¬ ds.all Char.isDigit then (0, some GoErr.errSyntax)
    else
      let n : Nat := digitsVal ds
      if neg then
        if 2 ^ 63 < n then (-(2 ^ 63 : Int), some GoErr.errRange)
        else (-(n : Int), none)
      else
        if 2 ^ 63 - 1 < n then ((2 ^ 63 - 1 : Int), some GoErr.errRange)
        else ((n : Int), none)

/-- Lean rendering of Go `strconv.Itoa`. -/
def intToDecimal (n : Int) : GoString := (toString n).toList

/-!
Models of the three regular expressions of `ahs.go`.  Go's `MatchString` is an
unanchored substring search, which the models reproduce: a pattern matches a
string when some suffix of the string has a matching prefix.
-/

/-- Matcher for the tail `-\d[a-z]` closing the pattern of
`computeRegionFromAZ` (anything may follow, as the search is unanchored). -/
def azClose : GoString → Bool
  | '-' :: d :: l :: _ => d.isDigit && l.isLower
  | _ => false

/-- Matcher for `[a-z]+-\d[a-z]` as a prefix of the given characters. -/
def azRunThen : GoString → Bool
  | [] => false
  | c :: rest => c.isLower && (azClose rest || azRunThen rest)

/-- Matcher for `[a-z]{2}-[a-z]+-\d[a-z]` as a prefix of the given characters. -/
def azMatchAt : GoString → Bool
  | a :: b :: '-' :: rest => a.isLower && b.isLower && azRunThen rest
  | _ => false

/-- Model of `regexp.MatchString("[a-z]{2}-[a-z]+-\\d[a-z]", s)`:
unanchored search for the availability-zone pattern. -/
def azContains (s : GoString) : Bool := s.tails.any azMatchAt

/-- Matcher for the tail `-\d` closing the region pattern of
`getAWSEC2Client`. -/
def regionClose : GoString → Bool
  | '-' :: d :: _ => d.isDigit
  | _ => false

/-- Matcher for `[a-z]+-\d` as a prefix of the given characters. -/
def regionRunThen : GoString → Bool
  | [] => false
  | c :: rest => c.isLower && (regionClose rest || regionRunThen rest)

/-- Matcher for `[a-z]{2}-[a-z]+-\d` as a prefix of the given characters. -/
def regionMatchAt : GoString → Bool
  | a :: b :: '-' :: rest => a.isLower && b.isLower && regionRunThen rest
  | _ => false

/-- Model of `regexp.MatchString("[a-z]{2}-[a-z]+-\\d", s)` used by
`getAWSEC2Client`. -/
def regionContains (s : GoString) : Bool := s.tails.any regionMatchAt

/-- Model of `computeRegionFromAZ` from `ahs.go`: if the availability-zone
pattern occurs in `az`, the region is `az` with its final character removed,
otherwise an error. -/
def computeRegionFromAZ (az : GoString) : Except GoErr GoString :=
  if azContains az then Except.ok az.dropLast
  else Except.error (GoErr.invalidAZ az)

/-- Modelled from the spec: an availability-zone string matching the shape
`<2 lowercase letters>-<word>-<digit><letter>` exactly (anchored at both
ends), closing tail. -/
def azShapeEnd : GoString → Bool
  | ['-', d, l] => d.isDigit && l.isLower
  | _ => false

/-- Modelled from the spec: tail `[a-z]+-\d[a-z]` consuming the whole string. -/
def azShapeTail : GoString → Bool
  | [] => false
  | c :: rest => c.isLower && (azShapeEnd rest || azShapeTail rest)

/-- Modelled from the spec: the full, anchored availability-zone shape
`<2 lowercase letters>-<word>-<digit><letter>`. -/
def azShape : GoString → Bool
  | a :: b :: '-' :: rest => a.isLower && b.isLower && azShapeTail rest
  | _ => false

/-!
Model of the backoff policy.  `run` builds a `backoff.Backoff` with
`Min = 100ms`, `Max = 120s`, `Factor = 2`, `Jitter = false`; successive calls
of `Duration()` therefore return `min(100ms * 2^k, 120s)` for `k = 0, 1, ...`.
Durations are modelled in nanoseconds (the unit of Go `time.Duration`); all
values involved are exactly representable in the library's `float64`
arithmetic, so natural-number arithmetic is faithful.
-/

/-- Duration (in nanoseconds) returned by the `k`-th call of
`p.Backoff.Duration()` in `run`, counting from `k = 0`. -/
def backoffDurationNs (k : Nat) : Nat :=
  min (100000000 * 2 ^ k) 120000000000

/-- Model of the exit test of the input-tag retry loop in `run`
(line `if d == 60*time.Second`): the loop surfaces the error and stops
exactly when the backoff duration equals sixty seconds. -/
def retryStopCheck (d : Nat) : Bool := d == 60000000000

/-- Model of `computeHostnameWithInstanceID` from `ahs.go`.  `none` models a
runtime panic of one of the two string slices; otherwise the function never
returns a Go error (its `error` result is always `nil` in the source). -/
def computeHostnameWithInstanceID (base instanceID separator : GoString)
    (length : Int) : Option GoString :=
  match goSliceFrom base ((base.length : Int) - length) with
  | none => none
  | some baseTail =>
    match goSlice instanceID 2 (2 + length) with
    | none => none
    | some suffix =>
      if baseTail = suffix then some base
      else some (base ++ separator ++ suffix)

/-!
Model of the regular expression `.*-(\d+)$` of `computeSequentialHostname`.
With the greedy `.*`, the expression matches exactly when the string ends in a
nonempty run of digits immediately preceded by `-`, and the captured group is
that maximal trailing digit run.
-/

/-- Maximal trailing run of decimal digits of `s` (the group captured by
`.*-(\d+)$` when the pattern matches). -/
def seqCapture (s : GoString) : GoString :=
  (s.reverse.takeWhile Char.isDigit).reverse

/-- Model of `regexp.MatchString(".*-(\\d+)$", s)`. -/
def seqMatch (s : GoString) : Bool :=
  !(s.reverse.takeWhile Char.isDigit).isEmpty &&
    (match s.reverse.dropWhile Char.isDigit with
     | '-' :: _ => true
     | _ => false)

/-!
Model of the sequential-allocation functions.  The AWS responses the functions
consume are supplied by an environment: `DescribeTags` yields the list of tag
values matching the (resource, key) filter, and `DescribeInstances` yields, for
a given group value, the instances (already flattened across reservations)
each carrying its list of `(key, value)` tag pairs.
-/

/-- Model of `findInstanceGroupTagValue` from `ahs.go`, applied to the result
of the single `DescribeTags` query it performs (the values of the tags
returned).  Exactly one tag must come back. -/
def findInstanceGroupTagValue (tagsResult : Except GoErr (List GoString)) :
    Except GoErr GoString :=
  match tagsResult with
  | Except.error e => Except.error e
  | Except.ok tags =>
    match tags with
    | [v] => Except.ok v
    | _ => Except.error (GoErr.tagCount tags.length)

/-- Tag-collection loop of `findAvailableNumberInInstanceGroup`: walk the
`(key, value)` tag pairs of all peers in order and `Atoi` the value of every
tag whose key is the sequential-id tag, aborting on the first parse error. -/
def collectUsed (sequentialIDTag : GoString) :
    List (GoString × GoString) → Except GoErr (List Int)
  | [] => Except.ok []
  | (k, v) :: rest =>
    if k = sequentialIDTag then
      match goAtoi v with
      | (n, none) => (collectUsed sequentialIDTag rest).map (fun l => n :: l)
      | (_, some e) => Except.error e
    else collectUsed sequentialIDTag rest

/-- Scan loop of `findAvailableNumberInInstanceGroup` (`for i := 0; ...`):
return `i+1` at the first index `i` where the sorted list differs from `i+1`,
and `len+1` when no index does. -/
def scanGap : List Int → Nat → Int
  | [], i => (i : Int) + 1
  | v :: rest, i => if v ≠ (i : Int) + 1 then (i : Int) + 1 else scanGap rest (i + 1)

/-- Model of `findAvailableNumberInInstanceGroup` from `ahs.go`, applied to
the result of the `DescribeInstances` query for the group (each peer instance
given as its list of `(key, value)` tag pairs, reservations flattened). -/
def findAvailableNumberInInstanceGroup
    (peersResult : Except GoErr (List (List (GoString × GoString))))
    (sequentialIDTag : GoString) : Except GoErr Int :=
  match peersResult with
  | Except.error e => Except.error e
  | Except.ok instances =>
    match collectUsed sequentialIDTag instances.flatten with
    | Except.error e => Except.error e
    | Except.ok used =>
      Except.ok (scanGap (List.insertionSort (· ≤ ·) used) 0)

/-- Environment of the sequential strategy: responses of the two queries
`computeSequentialHostname` may perform. -/
structure SeqEnv where
  /-- Result of the `DescribeTags` query of `findInstanceGroupTagValue`
  (values of the returned tags). -/
  tagsResult : Except GoErr (List GoString)
  /-- Result of the `DescribeInstances` query of
  `findAvailableNumberInInstanceGroup`, as a function of the group value. -/
  peersResult : GoString → Except GoErr (List (List (GoString × GoString)))

/-- Model of `computeSequentialHostname` from `ahs.go`; returns the Go triple
`(hostname, sequentialID, err)` with `err` as an `Option`. -/
def computeSequentialHostname (env : SeqEnv)
    (base instanceID separator groupTag sequentialIDTag : GoString) :
    GoString × Int × Option GoErr :=
  if seqMatch base then
    (base, (goAtoi (seqCapture base)).1, (goAtoi (seqCapture base)).2)
  else
    match findInstanceGroupTagValue env.tagsResult with
    | Except.error e => ([], -1, some e)
    | Except.ok instanceGroup =>
      match findAvailableNumberInInstanceGroup (env.peersResult instanceGroup)
          sequentialIDTag with
      | Except.error e => ([], -1, some e)
      | Except.ok sequentialID =>
        (base ++ separator ++ intToDecimal sequentialID, sequentialID, none)

/-!
Model of `run` for the read/write ordering analysis.  Remote API interactions
are recorded as an effect trace; the environment supplies every remote result.
The input-tag retry loop is modelled for environments in which the fetch
eventually succeeds (after `baseFailures` failed attempts): by the backoff
analysis proved below, the loop has no other way of finishing, and an
environment in which every attempt fails produces no write at all since the
loop never exits.
-/

/-- Remote interactions performed by `run`, in trace order. -/
inductive Effect where
  /-- The `c.MDS.Available()` probe of `getAWSMDSClient`. -/
  | readMDSCheck
  /-- The `GetMetadata("placement/availability-zone")` call of `getInstanceAZ`. -/
  | readAZ
  /-- The `GetMetadata("instance-id")` call of `getInstanceID`. -/
  | readInstanceID
  /-- One `DescribeInstances` attempt of `getBaseFromInputTag`. -/
  | readInputTag
  /-- The `DescribeTags` query of `findInstanceGroupTagValue`. -/
  | readGroupTag
  /-- The `DescribeInstances` query of `findAvailableNumberInInstanceGroup`. -/
  | readPeers
  /-- The `syscall.Sethostname` call of `setSystemHostname`. -/
  | writeLocalHostname (hostname : GoString)
  /-- The `CreateTags` call writing the hostname to the output tag. -/
  | writeOutputTag (key value : GoString)
  /-- The `CreateTags` call writing the sequential id tag. -/
  | writeSeqIDTag (key value : GoString)
  deriving DecidableEq, Repr

/-- Classifier: `true` for the read effects of `run`. -/
def isReadEffect : Effect → Bool
  | Effect.writeLocalHostname _ => false
  | Effect.writeOutputTag _ _ => false
  | Effect.writeSeqIDTag _ _ => false
  | _ => true

/-- Classifier: `true` for the write effects of `run`. -/
def isWriteEffect (e : Effect) : Bool := !isReadEffect e

/-- How a modelled execution of `run` finishes. -/
inductive Outcome where
  /-- The `return exit(nil)` path. -/
  | success
  /-- An error exit taken before the write phase of `run`. -/
  | earlyError (e : GoErr)
  /-- An error exit taken because one of the writes failed. -/
  | writeError (e : GoErr)
  /-- A runtime crash inside the hostname computation. -/
  | crashed
  deriving DecidableEq, Repr

/-- Subcommand dispatched by `run` (`ctx.Command.FullName()`), with the
flag values it reads. -/
inductive Cmd where
  /-- The `instance-id` subcommand with its `length` flag. -/
  | instanceId (length : Int)
  /-- The `sequential` subcommand with its two tag-name flags. -/
  | sequential (groupTag sequentialIDTag : GoString)
  /-- Any other (unimplemented) command name. -/
  | other (name : GoString)

/-- Environment of a whole `run` execution: every remote result it may
consume. -/
structure RunEnv where
  /-- Result of `user.Current()` (the username), or its error. -/
  userResult : Except GoErr GoString
  /-- Result of the `c.MDS.Available()` probe. -/
  mdsAvailable : Bool
  /-- Result of the availability-zone metadata read. -/
  azResult : Except GoErr GoString
  /-- Result of the instance-id metadata read. -/
  iidResult : Except GoErr GoString
  /-- Number of failed `getBaseFromInputTag` attempts before the first
  successful one. -/
  baseFailures : Nat
  /-- Value returned by the first successful `getBaseFromInputTag` attempt. -/
  baseValue : GoString
  /-- Responses consumed by the sequential strategy. -/
  seq : SeqEnv
  /-- Result of `setSystemHostname` (`none` on success). -/
  setHostnameResult : Option GoErr
  /-- Result of the `setTagValue` call on the output tag. -/
  setOutputTagResult : Option GoErr
  /-- Result of the `setTagValue` call on the sequential-id tag. -/
  setSeqTagResult : Option GoErr

/-- Reads performed by `run` up to and including the input-tag fetch loop,
with `n` attempts of the loop. -/
def basePre (n : Nat) : List Effect :=
  [Effect.readMDSCheck, Effect.readAZ, Effect.readInstanceID] ++
    List.replicate n Effect.readInputTag

/-- Reads performed by `computeSequentialHostname`: none when the base already
carries a numeric suffix, otherwise the group-tag query and, if it yields
exactly one value, the peer query. -/
def seqReadTrace (env : SeqEnv) (base : GoString) : List Effect :=
  if seqMatch base then []
  else
    match findInstanceGroupTagValue env.tagsResult with
    | Except.error _ => [Effect.readGroupTag]
    | Except.ok _ => [Effect.readGroupTag, Effect.readPeers]

/-- Model of `run` from the start through the hostname computation and the
`if err != nil` check that guards the write phase (lines 50-150 of `ahs.go`):
either an early exit outcome, or the computed `(hostname, sequentialID)`
pair, together with the trace of reads performed. -/
def runCompute (env : RunEnv) (cmd : Cmd) (separator : GoString) :
    (Outcome ⊕ (GoString × Int)) × List Effect :=
  match env.userResult with
  | Except.error e => (Sum.inl (Outcome.earlyError e), [])
  | Except.ok username =>
    if username ≠ "root".toList then (Sum.inl (Outcome.earlyError GoErr.notRoot), [])
    else if env.mdsAvailable = false then
      (Sum.inl (Outcome.earlyError GoErr.mdsUnavailable), [Effect.readMDSCheck])
    else
      match env.azResult with
      | Except.error e =>
        (Sum.inl (Outcome.earlyError e), [Effect.readMDSCheck, Effect.readAZ])
      | Except.ok az =>
        match computeRegionFromAZ az with
        | Except.error e =>
          (Sum.inl (Outcome.earlyError e), [Effect.readMDSCheck, Effect.readAZ])
        | Except.ok region =>
          if regionContains region = false then
            (Sum.inl (Outcome.earlyError (GoErr.invalidRegion region)),
              [Effect.readMDSCheck, Effect.readAZ])
          else
            match env.iidResult with
            | Except.error e =>
              (Sum.inl (Outcome.earlyError e),
                [Effect.readMDSCheck, Effect.readAZ, Effect.readInstanceID])
            | Except.ok iid =>
              match (List.range env.baseFailures).find?
                  (fun k => retryStopCheck (backoffDurationNs k)) with
              | some k =>
                (Sum.inl (Outcome.earlyError GoErr.inputTagRetriesExhausted),
                  basePre (k + 1))
              | none =>
                match cmd with
                | Cmd.instanceId length =>
                  match computeHostnameWithInstanceID env.baseValue iid separator
                      length with
                  | none =>
                    (Sum.inl Outcome.crashed, basePre (env.baseFailures + 1))
                  | some hostname =>
                    (Sum.inr (hostname, -1), basePre (env.baseFailures + 1))
                | Cmd.sequential groupTag sequentialIDTag =>
                  match computeSequentialHostname env.seq env.baseValue iid
                      separator groupTag sequentialIDTag with
                  | (_, _, some e) =>
                    (Sum.inl (Outcome.earlyError e),
                      basePre (env.baseFailures + 1) ++
                        seqReadTrace env.seq env.baseValue)
                  | (hostname, sequentialID, none) =>
                    (Sum.inr (hostname, sequentialID),
                      basePre (env.baseFailures + 1) ++
                        seqReadTrace env.seq env.baseValue)
                | Cmd.other name =>
                  (Sum.inl (Outcome.earlyError (GoErr.notImplemented name)),
                    basePre (env.baseFailures + 1))

/-- Model of the write phase of `run` (lines 152-177 of `ahs.go`). -/
def runWrites (env : RunEnv) (cmd : Cmd) (hostname : GoString)
    (sequentialID : Int) (outputTag : GoString) (dryRun : Bool) :
    Outcome × List Effect :=
  if dryRun then (Outcome.success, [])
  else
    match env.setHostnameResult with
    | some e => (Outcome.writeError e, [Effect.writeLocalHostname hostname])
    | none =>
      match env.setOutputTagResult with
      | some e =>
        (Outcome.writeError e,
          [Effect.writeLocalHostname hostname,
            Effect.writeOutputTag outputTag hostname])
      | none =>
        match cmd with
        | Cmd.sequential _ sequentialIDTag =>
          match env.setSeqTagResult with
          | some e =>
            (Outcome.writeError e,
              [Effect.writeLocalHostname hostname,
                Effect.writeOutputTag outputTag hostname,
                Effect.writeSeqIDTag sequentialIDTag (intToDecimal sequentialID)])
          | none =>
            (Outcome.success,
              [Effect.writeLocalHostname hostname,
                Effect.writeOutputTag outputTag hostname,
                Effect.writeSeqIDTag sequentialIDTag (intToDecimal sequentialID)])
        | _ =>
          (Outcome.success,
            [Effect.writeLocalHostname hostname,
              Effect.writeOutputTag outputTag hostname])

/-- Full sequence of writes `run` performs on the all-success path, in order:
local hostname, output tag, and (sequential mode only) the sequential-id tag. -/
def writePlan (cmd : Cmd) (outputTag hostname : GoString)
    (sequentialID : Int) : List Effect :=
  [Effect.writeLocalHostname hostname, Effect.writeOutputTag outputTag hostname] ++
    (match cmd with
     | Cmd.sequential _ sequentialIDTag =>
       [Effect.writeSeqIDTag sequentialIDTag (intToDecimal sequentialID)]
     | _ => [])

/-- Model of `run`: compute phase followed, when it reaches them, by the
writes. -/
def runModel (env : RunEnv) (cmd : Cmd) (outputTag separator : GoString)
    (dryRun : Bool) : Outcome × List Effect :=
  match runCompute env cmd separator with
  | (Sum.inl out, tr) => (out, tr)
  | (Sum.inr hs, tr) =>
    match runWrites env cmd hs.1 hs.2 outputTag dryRun with
    | (out, ws) => (out, tr ++ ws)

/-- Modelled from the spec: `r` is the lowest positive integer not present
in the collection `s` of observed sequential ids. -/
def isLowestMissing (s : List Int) (r : Int) : Prop :=
  1 ≤ r ∧ r ∉ s ∧ ∀ m : Int, 1 ≤ m → m < r → m ∈ s

/-!
Claim theorems.
-/

/-- C1: the claim states that when every input-tag fetch attempt fails, the
retry loop stops exactly when the backoff duration reaches the configured
120-second cap.  In the code the loop's only exit test compares the duration
against sixty seconds, a value the sequence `min(100ms * 2^k, 120s)` never
takes: the check fails at every attempt (so the loop never stops), even though
the duration does saturate at the 120-second cap from the twelfth call on. -/
theorem c1_retry_loop_never_stops :
    (∀ k, retryStopCheck (backoffDurationNs k) = false) ∧
    backoffDurationNs 10 = 102400000000 ∧
    backoffDurationNs 11 = 120000000000 ∧
    backoffDurationNs 12 = 120000000000 := by
  refine ⟨?_, by decide, by decide, by decide⟩
  intro k
  rcases Nat.lt_or_ge k 11 with h | h
  · interval_cases k <;> decide
  · have h2 : (2 : Nat) ^ 11 ≤ 2 ^ k := Nat.pow_le_pow_right (by norm_num) h
    have h3 : (120000000000 : Nat) ≤ 100000000 * 2 ^ k := by
      have := Nat.mul_le_mul_left 100000000 h2
      omega
    show retryStopCheck (min (100000000 * 2 ^ k) 120000000000) = false
    rw [Nat.min_eq_right h3]
    decide

/-- C3: the claim states that base `"web"`, instance id
`"i-0123456789abcdef0"`, separator `"-"` and length `5` yield `"web-01234"`
without error.  The code instead evaluates `base[len(base)-length:]`, i.e.
`"web"[-2:]`, which panics: the model returns `none`. -/
theorem c3_instance_id_example_crashes :
    computeHostnameWithInstanceID ("web".toList) ("i-0123456789abcdef0".toList)
      ("-".toList) 5 = none := by decide

/-- C4: the claim states that a suffix length exceeding the usable portion of
the instance id fails with a data error and never panics.  The code has no
error path at all: whenever `length` exceeds `len(instanceID) - 2` the slice
`instanceID[2:2+length]` (or `base[len(base)-length:]` before it) is out of
range and the function panics — the model returns `none` for every such
input. -/
theorem c4_overlong_suffix_always_crashes :
    ∀ (base instanceID separator : GoString) (length : Int),
      (instanceID.length : Int) - 2 < length →
      computeHostnameWithInstanceID base instanceID separator length = none := by
  intro base iid sep len h
  unfold computeHostnameWithInstanceID goSliceFrom goSlice
  by_cases h1 : (0 ≤ (base.length : Int) - len ∧
      (base.length : Int) - len ≤ (base.length : Int))
  · rw [if_pos h1]
    have h2 : ¬ (0 ≤ (2 : Int) ∧ (2 : Int) ≤ 2 + len ∧
        2 + len ≤ (iid.length : Int)) := by omega
    rw [if_neg h2]
  · rw [if_neg h1]

/-- Witness for C4 at the concrete failing input of the spec: a 19-character
instance id (17 usable characters) with requested length 18. -/
theorem c4_overlong_suffix_witness :
    ((("i-0123456789abcdef0".toList : GoString).length : Int) - 2 < 18) ∧
    computeHostnameWithInstanceID (List.replicate 18 'a')
      ("i-0123456789abcdef0".toList) ("-".toList) 18 = none :=
  ⟨by decide,
    c4_overlong_suffix_always_crashes (List.replicate 18 'a')
      ("i-0123456789abcdef0".toList) ("-".toList) 18 (by decide)⟩

/-- Helper: the anchored closing tail of the spec shape implies the code's
unanchored closing matcher. -/
theorem azShapeEnd_imp_azClose (s : GoString) (h : azShapeEnd s = true) :
    azClose s = true := by
  unfold azShapeEnd at h
  split at h
  · simpa [azClose] using h
  · exact absurd h (by simp)

/-- Helper: the anchored middle of the spec shape implies the code's
unanchored middle matcher. -/
theorem azShapeTail_imp_azRunThen (s : GoString) (h : azShapeTail s = true) :
    azRunThen s = true := by
  induction s with
  | nil => simpa [azShapeTail] using h
  | cons c rest ih =>
    simp only [azShapeTail, Bool.and_eq_true, Bool.or_eq_true] at h
    simp only [azRunThen, Bool.and_eq_true, Bool.or_eq_true]
    refine ⟨h.1, ?_⟩
    rcases h.2 with h2 | h2
    · exact Or.inl (azShapeEnd_imp_azClose rest h2)
    · exact Or.inr (ih h2)

/-- Helper: a string of the exact spec shape matches the code's pattern at
position 0. -/
theorem azShape_imp_azMatchAt (s : GoString) (h : azShape s = true) :
    azMatchAt s = true := by
  unfold azShape at h
  split at h
  case _ a b rest =>
    rw [Bool.and_eq_true] at h
    show azMatchAt (a :: b :: '-' :: rest) = true
    rw [show azMatchAt (a :: b :: '-' :: rest)
        = ((a.isLower && b.isLower) && azRunThen rest) from rfl]
    rw [Bool.and_eq_true]
    exact ⟨h.1, azShapeTail_imp_azRunThen rest h.2⟩
  case _ => exact absurd h (by simp)

/-- Helper: a match at position 0 makes the unanchored search succeed. -/
theorem azMatchAt_imp_azContains (s : GoString) (h : azMatchAt s = true) :
    azContains s = true := by
  unfold azContains
  rw [List.any_eq_true]
  exact ⟨s, (List.mem_tails _ _).2 (List.suffix_refl s), h⟩

/-- C7 (amended): `computeRegionFromAZ` strips the final character whenever
the availability-zone pattern occurs as a substring of the input — in
particular for every string of the exact spec shape — and fails with the
invalid-availability-zone error exactly when no substring matches.  (The
claim's "fails for every string not matching that shape" is refuted by the
counterexample below: the search is unanchored.) -/
theorem c7_region_amended (s : GoString) :
    (azShape s = true → azContains s = true) ∧
    (azContains s = true → computeRegionFromAZ s = Except.ok s.dropLast) ∧
    (azContains s = false →
      computeRegionFromAZ s = Except.error (GoErr.invalidAZ s)) := by
  refine ⟨fun h => azMatchAt_imp_azContains s (azShape_imp_azMatchAt s h),
    fun h => ?_, fun h => ?_⟩
  · simp [computeRegionFromAZ, h]
  · simp [computeRegionFromAZ, h]

/-- Witness for C7's amended statement at the spec's own examples. -/
theorem c7_region_witness :
    computeRegionFromAZ ("eu-west-1a".toList) = Except.ok ("eu-west-1".toList) ∧
    computeRegionFromAZ ("invalid".toList) =
      Except.error (GoErr.invalidAZ ("invalid".toList)) := by
  constructor
  · rw [(c7_region_amended ("eu-west-1a".toList)).2.1 (by decide)]
    decide
  · exact (c7_region_amended ("invalid".toList)).2.2 (by decide)

/-- Counterexample for C7 as stated: `"eu-west-1ab"` does not match the spec
shape, yet the code accepts it (the substring `"eu-west-1a"` matches) and
returns `"eu-west-1a"` instead of failing. -/
theorem c7_region_counterexample :
    computeRegionFromAZ ("eu-west-1ab".toList) = Except.ok ("eu-west-1a".toList) ∧
    azShape ("eu-west-1ab".toList) = false := by decide

/-- Helper: `strconv.Atoi` on a nonempty all-digit string within the 64-bit
range returns its decimal value with no error. -/
theorem goAtoi_digits (s : GoString) (hne : s ≠ [])
    (hd : s.all Char.isDigit = true) (hr : digitsVal s ≤ 2 ^ 63 - 1) :
    goAtoi s = ((digitsVal s : Int), none) := by
  match s, hne with
  | c :: rest, _ =>
    rw [List.all_cons, Bool.and_eq_true] at hd
    have hc1 : c ≠ '-' := by
      intro hcc; rw [hcc] at hd; exact absurd hd.1 (by decide)
    have hc2 : c ≠ '+' := by
      intro hcc; rw [hcc] at hd; exact absurd hd.1 (by decide)
    have hall : (c :: rest).all Char.isDigit = true := by
      rw [List.all_cons, Bool.and_eq_true]; exact hd
    simp [goAtoi, hc1, hc2, hall, Nat.not_lt.mpr hr]
    exact le_trans hr (by norm_num)

/-- C5: a base already ending in `-<digits>` is returned unchanged by
`computeSequentialHostname` together with the parsed trailing number, and the
result does not depend on the environment at all — neither the group tag nor
the peers are consulted.  (For digit runs beyond the 64-bit range Go's `Atoi`
clamps the value and reports a range error, which the second component
reflects; within range the parsed number is the decimal value and no error is
reported.) -/
theorem c5_sequential_idempotent :
    ∀ (env env2 : SeqEnv)
      (base instanceID separator groupTag sequentialIDTag : GoString),
      seqMatch base = true →
      computeSequentialHostname env base instanceID separator groupTag
          sequentialIDTag =
        computeSequentialHostname env2 base instanceID separator groupTag
          sequentialIDTag ∧
      computeSequentialHostname env base instanceID separator groupTag
          sequentialIDTag =
        (base, (goAtoi (seqCapture base)).1, (goAtoi (seqCapture base)).2) ∧
      (digitsVal (seqCapture base) ≤ 2 ^ 63 - 1 →
        (goAtoi (seqCapture base)).1 = (digitsVal (seqCapture base) : Int) ∧
        (goAtoi (seqCapture base)).2 = none) := by
  intro env env2 base iid sep gt st h
  have hcap : seqCapture base ≠ [] ∧
      (seqCapture base).all Char.isDigit = true := by
    rw [seqMatch, Bool.and_eq_true] at h
    constructor
    · rw [seqCapture]
      simp only [ne_eq, List.reverse_eq_nil_iff]
      intro hx
      rw [hx] at h
      exact absurd h.1 (by decide)
    · rw [seqCapture, List.all_eq_true]
      intro x hx
      rw [List.mem_reverse] at hx
      exact List.mem_takeWhile_imp hx
  refine ⟨by simp [computeSequentialHostname, h],
    by simp [computeSequentialHostname, h], fun hr => ?_⟩
  rw [goAtoi_digits (seqCapture base) hcap.1 hcap.2 hr]
  exact ⟨rfl, rfl⟩

/-- Witness for C5 at the spec's example: base `"web-7"` yields
`("web-7", 7)` with no error, for a concrete environment. -/
theorem c5_sequential_idempotent_witness :
    computeSequentialHostname ⟨Except.ok [], fun _ => Except.ok []⟩
        ("web-7".toList) ("i-0123456789abcdef0".toList) ("-".toList)
        ("group".toList) ("sid".toList) =
      ("web-7".toList, 7, none) := by
  have h := c5_sequential_idempotent ⟨Except.ok [], fun _ => Except.ok []⟩
      ⟨Except.ok [], fun _ => Except.ok []⟩ ("web-7".toList)
      ("i-0123456789abcdef0".toList) ("-".toList) ("group".toList)
      ("sid".toList) (by decide)
  rw [h.2.1]; decide

/-- C6: on inputs where the two Go slices are within bounds (the last `N`
characters of the base and characters `2..2+N` of the instance id exist),
`computeHostnameWithInstanceID` returns the base unchanged when the base
already ends in the computed suffix, and `base + separator + suffix`
otherwise — so re-running it on its own output is idempotent. -/
theorem c6_instance_id_idempotent :
    ∀ (base instanceID separator : GoString) (length : Int),
      0 ≤ length → length ≤ (base.length : Int) →
      2 + length ≤ (instanceID.length : Int) →
      (base.drop (base.length - length.toNat) =
          (instanceID.take (2 + length).toNat).drop 2 →
        computeHostnameWithInstanceID base instanceID separator length =
          some base) ∧
      (base.drop (base.length - length.toNat) ≠
          (instanceID.take (2 + length).toNat).drop 2 →
        computeHostnameWithInstanceID base instanceID separator length =
          some (base ++ separator ++
            (instanceID.take (2 + length).toNat).drop 2)) := by
  intro base iid sep len h0 hb hi
  unfold computeHostnameWithInstanceID goSliceFrom goSlice
  have h1 : 0 ≤ (base.length : Int) - len ∧
      (base.length : Int) - len ≤ (base.length : Int) := by omega
  rw [if_pos h1]
  have h2 : 0 ≤ (2 : Int) ∧ (2 : Int) ≤ 2 + len ∧
      2 + len ≤ (iid.length : Int) := by omega
  rw [if_pos h2]
  have h3 : ((base.length : Int) - len).toNat = base.length - len.toNat := by
    omega
  have h4 : ((2 : Int)).toNat = 2 := rfl
  rw [h3, h4]
  constructor <;> intro hc <;> simp [hc]

/-- Witness for C6 at the spec's example: `"web-12345"`-style base already
ending in the computed suffix is returned unchanged. -/
theorem c6_instance_id_idempotent_witness :
    computeHostnameWithInstanceID ("web-01234".toList)
        ("i-0123456789abcdef0".toList) ("-".toList) 5 =
      some ("web-01234".toList) := by
  have h := c6_instance_id_idempotent ("web-01234".toList)
      ("i-0123456789abcdef0".toList) ("-".toList) 5 (by decide) (by decide)
      (by decide)
  exact h.1 (by decide)

/-- C8: when the group-tag query returns `tags`, `findInstanceGroupTagValue`
succeeds exactly when `tags` has exactly one entry, in which case it returns
that entry's value; with zero or several entries it returns the
unexpected-amount error and no value. -/
theorem c8_group_tag_exactly_one (tags : List GoString) :
    ((∃ v, findInstanceGroupTagValue (Except.ok tags) = Except.ok v) ↔
      tags.length = 1) ∧
    (∀ v, tags = [v] →
      findInstanceGroupTagValue (Except.ok tags) = Except.ok v) ∧
    (tags.length ≠ 1 →
      findInstanceGroupTagValue (Except.ok tags) =
        Except.error (GoErr.tagCount tags.length)) := by
  match tags with
  | [] => refine ⟨?_, ?_, ?_⟩ <;> simp [findInstanceGroupTagValue]
  | [t] => refine ⟨?_, ?_, ?_⟩ <;> simp [findInstanceGroupTagValue]
  | a :: b :: rest => refine ⟨?_, ?_, ?_⟩ <;> simp [findInstanceGroupTagValue]

/-- Witness for C8: a single returned tag yields its value. -/
theorem c8_group_tag_witness :
    findInstanceGroupTagValue (Except.ok [("mygroup".toList)]) =
      Except.ok ("mygroup".toList) :=
  (c8_group_tag_exactly_one _).2.1 _ rfl

/-- Helper: bounds of the gap-scan loop — starting at index `i` it returns a
value strictly between `i` and `i + len + 2`. -/
theorem scanGap_bounds (l : List Int) : ∀ i : Nat,
    (i : Int) + 1 ≤ scanGap l i ∧ scanGap l i ≤ (i : Int) + l.length + 1 := by
  induction l with
  | nil => intro i; simp [scanGap]
  | cons v rest ih =>
    intro i
    by_cases hv : v = (i : Int) + 1
    · simp only [scanGap, hv, ne_eq, not_true_eq_false, if_false]
      have h := ih (i + 1)
      push_cast at h ⊢
      simp only [List.length_cons]
      push_cast
      omega
    · simp only [scanGap, ne_eq, hv, not_false_iff, if_true]
      simp only [List.length_cons]
      push_cast
      omega

/-- Helper: a weakly sorted duplicate-free list of integers is strictly
sorted. -/
theorem pairwise_lt_of_le_nodup (l : List Int)
    (hs : l.Pairwise (· ≤ ·)) (hn : l.Nodup) : l.Pairwise (· < ·) := by
  induction l with
  | nil => simp
  | cons a t ih =>
    rw [List.pairwise_cons] at hs ⊢
    rw [List.nodup_cons] at hn
    refine ⟨fun b hb => ?_, ih hs.2 hn.2⟩
    exact lt_of_le_of_ne (hs.1 b hb) (fun he => hn.1 (he ▸ hb))

/-- Helper: on a strictly sorted list whose elements all exceed `i`, the
gap-scan loop returns the least integer above `i` that is absent from the
list. -/
theorem scanGap_lowest (l : List Int) : ∀ i : Nat,
    l.Pairwise (· < ·) → (∀ x ∈ l, (i : Int) + 1 ≤ x) →
    scanGap l i ∉ l ∧
      ∀ m : Int, (i : Int) + 1 ≤ m → m < scanGap l i → m ∈ l := by
  induction l with
  | nil =>
    intro i _ _
    refine ⟨by simp, fun m h1 h2 => ?_⟩
    simp only [scanGap] at h2
    omega
  | cons v rest ih =>
    intro i hp hb
    rw [List.pairwise_cons] at hp
    have hvb : (i : Int) + 1 ≤ v := hb v (List.mem_cons_self _ _)
    by_cases hv : v = (i : Int) + 1
    · simp only [scanGap, hv, ne_eq, not_true_eq_false, if_false]
      have hrest : ∀ x ∈ rest, ((i + 1 : Nat) : Int) + 1 ≤ x := by
        intro x hx
        have h1 := hp.1 x hx
        push_cast
        omega
      have ihh := ih (i + 1) hp.2 hrest
      have hlow := (scanGap_bounds rest (i + 1)).1
      constructor
      · intro hmem
        rcases List.mem_cons.mp hmem with h | h
        · push_cast at hlow; omega
        · exact ihh.1 h
      · intro m h1 h2
        by_cases hm : m = (i : Int) + 1
        · rw [hm, ← hv]; exact List.mem_cons_self _ _
        · have h3 : ((i + 1 : Nat) : Int) + 1 ≤ m := by push_cast; omega
          exact List.mem_cons_of_mem _ (ihh.2 m h3 h2)
    · have hvgt : (i : Int) + 1 < v := by omega
      simp only [scanGap, ne_eq, hv, not_false_iff, if_true]
      constructor
      · intro hmem
        rcases List.mem_cons.mp hmem with h | h
        · omega
        · have := hp.1 _ h; omega
      · intro m h1 h2
        omega

/-- C2 (amended): whenever the observed sequential ids are pairwise distinct
and all at least `1`, `findAvailableNumberInInstanceGroup` returns the lowest
positive integer not among them.  (As stated over arbitrary observed
collections the claim is false — see the counterexample: with observed ids
containing `0` or duplicates the scan can return an id that is already
present.) -/
theorem c2_lowest_missing_amended :
    ∀ (instances : List (List (GoString × GoString)))
      (sequentialIDTag : GoString) (used : List Int),
      collectUsed sequentialIDTag instances.flatten = Except.ok used →
      used.Nodup → (∀ x ∈ used, 1 ≤ x) →
      ∃ r, findAvailableNumberInInstanceGroup (Except.ok instances)
          sequentialIDTag = Except.ok r ∧ isLowestMissing used r := by
  intro instances st used hcol hnd hpos
  refine ⟨scanGap (List.insertionSort (· ≤ ·) used) 0, ?_, ?_⟩
  · simp [findAvailableNumberInInstanceGroup, hcol]
  · have hperm : List.Perm (List.insertionSort (· ≤ ·) used) used :=
      List.perm_insertionSort _ _
    have hsorted : List.Pairwise (· ≤ ·) (List.insertionSort (· ≤ ·) used) :=
      List.sorted_insertionSort _ _
    have hnd2 : (List.insertionSort (· ≤ ·) used).Nodup :=
      hperm.nodup_iff.2 hnd
    have hlt := pairwise_lt_of_le_nodup _ hsorted hnd2
    have hbnd : ∀ x ∈ List.insertionSort (· ≤ ·) used,
        ((0 : Nat) : Int) + 1 ≤ x := by
      intro x hx
      have := hpos x (hperm.mem_iff.1 hx)
      push_cast
      omega
    have hmain := scanGap_lowest _ 0 hlt hbnd
    have hlow := (scanGap_bounds (List.insertionSort (· ≤ ·) used) 0).1
    refine ⟨by push_cast at hlow; omega, ?_, ?_⟩
    · intro hmem
      exact hmain.1 (hperm.mem_iff.2 hmem)
    · intro m h1 h2
      have h3 : ((0 : Nat) : Int) + 1 ≤ m := by push_cast; omega
      exact hperm.mem_iff.1 (hmain.2 m h3 h2)

/-- Witness for C2's amended statement at the spec's example: observed ids
`{1, 2, 4}` (distinct and positive) yield the lowest missing id, `3`. -/
theorem c2_lowest_missing_witness :
    ∃ r, findAvailableNumberInInstanceGroup
        (Except.ok [[("sid".toList, "1".toList)], [("sid".toList, "2".toList)],
          [("sid".toList, "4".toList)]]) ("sid".toList) = Except.ok r ∧
      isLowestMissing [1, 2, 4] r :=
  c2_lowest_missing_amended _ _ [1, 2, 4] (by decide) (by decide) (by decide)

/-- Counterexample for C2 as stated: with observed ids `[0, 1]` the function
returns `1`, which is already present — not the lowest positive missing
integer (`2`). -/
theorem c2_lowest_missing_counterexample :
    findAvailableNumberInInstanceGroup
        (Except.ok [[("sid".toList, "0".toList)], [("sid".toList, "1".toList)]])
        ("sid".toList) = Except.ok 1 ∧
      collectUsed ("sid".toList)
        ([[("sid".toList, "0".toList)],
          [("sid".toList, "1".toList)]] :
            List (List (GoString × GoString))).flatten =
        Except.ok [0, 1] ∧
      ¬ isLowestMissing [0, 1] 1 :=
  ⟨by decide, by decide, fun h => h.2.1 (by decide)⟩

/-- C10: whenever `findAvailableNumberInInstanceGroup` succeeds with observed
ids `used` — including collections with zeros, negatives or duplicates — the
returned id lies between `1` and `len(used) + 1`. -/
theorem c10_result_in_range :
    ∀ (instances : List (List (GoString × GoString)))
      (sequentialIDTag : GoString) (used : List Int) (r : Int),
      collectUsed sequentialIDTag instances.flatten = Except.ok used →
      findAvailableNumberInInstanceGroup (Except.ok instances)
          sequentialIDTag = Except.ok r →
      1 ≤ r ∧ r ≤ (used.length : Int) + 1 := by
  intro instances st used r hcol hr
  simp only [findAvailableNumberInInstanceGroup, hcol] at hr
  have hb := scanGap_bounds (List.insertionSort (· ≤ ·) used) 0
  have hlen : (List.insertionSort (· ≤ ·) used).length = used.length :=
    (List.perm_insertionSort _ _).length_eq
  rw [Except.ok.injEq] at hr
  rw [← hr]
  rw [hlen] at hb
  push_cast at hb
  omega

/-- Witness for C10 at observed ids `[2, 2]` (duplicates): the function
returns `1`, within the range `[1, 3]`. -/
theorem c10_result_in_range_witness :
    (1 : Int) ≤ 1 ∧ (1 : Int) ≤ (([2, 2] : List Int).length : Int) + 1 :=
  c10_result_in_range
    [[("sid".toList, "2".toList), ("sid".toList, "2".toList)]]
    ("sid".toList) [2, 2] 1 (by decide) (by decide)

/-- Helper: the trace up to and including the input-tag loop holds only
reads. -/
theorem basePre_reads (n : Nat) : ∀ e ∈ basePre n, isReadEffect e = true := by
  intro e he
  simp only [basePre, List.mem_append, List.mem_cons, List.not_mem_nil,
    or_false, List.mem_replicate] at he
  rcases he with (rfl | rfl | rfl) | ⟨_, rfl⟩ <;> rfl

/-- Helper: the sequential strategy performs only reads. -/
theorem seqReadTrace_reads (env : SeqEnv) (base : GoString) :
    ∀ e ∈ seqReadTrace env base, isReadEffect e = true := by
  intro e he
  unfold seqReadTrace at he
  split at he
  · exact absurd he (by simp)
  · split at he <;> (fin_cases he <;> rfl)

/-- Helper: every effect in the compute phase of `run` is a read. -/
theorem runCompute_reads (env : RunEnv) (cmd : Cmd) (separator : GoString) :
    ∀ e ∈ (runCompute env cmd separator).2, isReadEffect e = true := by
  intro e he
  unfold runCompute at he
  repeat' split at he
  all_goals first
    | exact basePre_reads _ e he
    | (rcases List.mem_append.mp he with h | h
       exacts [basePre_reads _ e h, seqReadTrace_reads _ _ e h])
    | (fin_cases he <;> rfl)

/-- Helper: the write phase of a non-dry run emits only writes, in the order
local hostname, output tag, sequential-id tag (a prefix of the full plan when
a write fails), and finishes with success or a write error. -/
theorem runWrites_writes (env : RunEnv) (cmd : Cmd) (hostname : GoString)
    (sequentialID : Int) (outputTag : GoString) (out : Outcome)
    (ws : List Effect)
    (hrw : runWrites env cmd hostname sequentialID outputTag false = (out, ws)) :
    (∀ e ∈ ws, isWriteEffect e = true) ∧
    (∃ t, ws ++ t = writePlan cmd outputTag hostname sequentialID) ∧
    (out = Outcome.success ∨ ∃ er, out = Outcome.writeError er) := by
  unfold runWrites at hrw
  repeat' split at hrw
  all_goals (injection hrw with h1 h2; subst h1; subst h2)
  all_goals refine ⟨by intro e he; fin_cases he <;> rfl, ?_, ?_⟩
  all_goals first
    | exact Or.inl rfl
    | exact Or.inr ⟨_, rfl⟩
    | exact ⟨[], rfl⟩
    | exact ⟨writePlan cmd outputTag hostname sequentialID, rfl⟩
    | exact ⟨(writePlan cmd outputTag hostname sequentialID).drop 1, rfl⟩
    | exact ⟨(writePlan cmd outputTag hostname sequentialID).drop 2, rfl⟩

/-- C9: in a non-dry-run execution of `run`, the effect trace splits into all
remote reads followed by the writes; the writes are an in-order prefix of
"apply hostname locally, write the output tag, (sequential mode only) write
the sequential-id tag"; and if the execution fails before the write phase (an
early error or a crash in the hostname computation) no write at all is
performed. -/
theorem c9_reads_before_writes :
    ∀ (env : RunEnv) (cmd : Cmd) (outputTag separator : GoString)
      (out : Outcome) (tr : List Effect),
      runModel env cmd outputTag separator false = (out, tr) →
      ∃ rs ws, tr = rs ++ ws ∧
        (∀ e ∈ rs, isReadEffect e = true) ∧
        (∀ e ∈ ws, isWriteEffect e = true) ∧
        (∃ hostname sequentialID t,
          ws ++ t = writePlan cmd outputTag hostname sequentialID) ∧
        (((∃ er, out = Outcome.earlyError er) ∨ out = Outcome.crashed) →
          ws = []) := by
  intro env cmd ot sep out tr h
  unfold runModel at h
  cases hrc : runCompute env cmd sep with
  | mk res rtr =>
  rw [hrc] at h
  cases res with
  | inl o =>
    dsimp only at h
    injection h with h1 h2
    subst h1; subst h2
    refine ⟨rtr, [], by simp, ?_, by simp, ?_, fun _ => rfl⟩
    · intro e he
      exact runCompute_reads env cmd sep e (by rw [hrc]; exact he)
    · exact ⟨[], -1, writePlan cmd ot [] (-1), rfl⟩
  | inr hs =>
    dsimp only at h
    cases hrw : runWrites env cmd hs.1 hs.2 ot false with
    | mk wout ws =>
    rw [hrw] at h
    dsimp only at h
    injection h with h1 h2
    subst h1; subst h2
    have L2 := runWrites_writes env cmd hs.1 hs.2 ot wout ws hrw
    refine ⟨rtr, ws, rfl, ?_, L2.1, ⟨hs.1, hs.2, L2.2.1⟩, ?_⟩
    · intro e he
      exact runCompute_reads env cmd sep e (by rw [hrc]; exact he)
    · intro hbad
      exfalso
      rcases L2.2.2 with h1 | ⟨er, h1⟩ <;>
        rcases hbad with ⟨er2, h2⟩ | h2 <;> rw [h1] at h2 <;> exact absurd h2 (by simp)

/-- Witness for C9: a concrete successful `instance-id` run whose trace is
four reads followed by the two writes. -/
theorem c9_reads_before_writes_witness :
    ∃ rs ws,
      ([Effect.readMDSCheck, Effect.readAZ, Effect.readInstanceID,
          Effect.readInputTag,
          Effect.writeLocalHostname ("webxx-01234".toList),
          Effect.writeOutputTag ("Name".toList) ("webxx-01234".toList)] :
            List Effect) = rs ++ ws ∧
        (∀ e ∈ rs, isReadEffect e = true) ∧
        (∀ e ∈ ws, isWriteEffect e = true) ∧
        (∃ hostname sequentialID t,
          ws ++ t = writePlan (Cmd.instanceId 5) ("Name".toList) hostname
            sequentialID) ∧
        (((∃ er, Outcome.success = Outcome.earlyError er) ∨
            Outcome.success = Outcome.crashed) → ws = []) :=
  c9_reads_before_writes
    { userResult := Except.ok ("root".toList), mdsAvailable := true,
      azResult := Except.ok ("eu-west-1a".toList),
      iidResult := Except.ok ("i-0123456789abcdef0".toList),
      baseFailures := 0, baseValue := ("webxx".toList),
      seq := ⟨Except.ok [], fun _ => Except.ok []⟩,
      setHostnameResult := none, setOutputTagResult := none,
      setSeqTagResult := none }
    (Cmd.instanceId 5) ("Name".toList) ("-".toList) Outcome.success _
    (by decide)
